import Mathlib

/-!
Shallow embedding of the query-AST core of `graphql-parser`
(files `src/lib.rs` and `src/query/ast.rs`) together with its
serde-based JSON serialization, and proofs about the serialized shape.

Text abstraction: in the Rust source every text-bearing field has type
`T::Value` for a type parameter `T: Text<'a>`; the owned instantiation is
`T = String`.  Here the AST types are parameterized by a plain type `T`
standing for `T::Value`, and serialization (which needs the text to be
rendered, `value.as_ref()`) is defined at the owned instantiation
`T = String`, mirroring the `serde_json` usage in the repository's test.
-/

namespace GraphqlParser

/-- Model of the structured-data output produced by a JSON emitter
(`serde_json`): an object is the ordered sequence of `serialize_entry` /
`serialize_field` calls, an array the ordered sequence of elements. -/
inductive Json where
  | null : Json
  | bool (b : Bool) : Json
  | num (n : Int) : Json
  | str (s : String) : Json
  | arr (items : List Json) : Json
  | obj (entries : List (String × Json)) : Json

/-- First-match association lookup on an object's entry list. -/
def lookupKey (k : String) : List (String × Json) → Option Json
  | [] => none
  | (k', v) :: rest => if k' = k then some v else lookupKey k rest

/-- Lookup of a key in a serialized JSON object (`none` on non-objects). -/
def Json.lookup (j : Json) (k : String) : Option Json :=
  match j with
  | .obj es => lookupKey k es
  | _ => none

/-- Modelled from the spec: `crate::position::Pos` is outside the visible
source; the spec describes it as a source position retained for
diagnostics only. -/
structure Pos where
  line : Nat
  column : Nat
deriving DecidableEq

/-- Modelled from the spec: `crate::common::Type` (named / list / non-null
type references) is outside the visible source. -/
inductive Typ (T : Type) where
  | namedType (name : T) : Typ T
  | listType (inner : Typ T) : Typ T
  | nonNullType (inner : Typ T) : Typ T

/-- The recursive literal value.  The visible excerpt of `src/lib.rs` shows
only the `Object` variant, backed by a `BTreeMap<T::Value, Value>`; the
remaining variants are modelled from the spec ("Variable(name), Int,
String, Boolean, Null, Enum(symbol), List, Object"; the spec's open
question about floats is left out, no claim touches them).  The
`BTreeMap` is embedded as its ordered entry sequence: iteration over a
`BTreeMap` yields entries in ascending key order, and the `btreeInsert`
function below is the map's insertion operation. -/
inductive Value (T : Type) where
  | var (name : T) : Value T
  | int (n : Int) : Value T
  | string (s : T) : Value T
  | boolean (b : Bool) : Value T
  | null : Value T
  | enum (name : T) : Value T
  | list (items : List (Value T)) : Value T
  | object (entries : List (T × Value T)) : Value T

/-- Model of `BTreeMap::insert` on the ordered entry list: keeps entries strictly
ascending by key, replacing the value when the key is already present. -/
def btreeInsert (k : String) (v : α) : List (String × α) → List (String × α)
  | [] => [(k, v)]
  | (k', v') :: rest =>
    if k < k' then (k, v) :: (k', v') :: rest
    else if k = k' then (k, v) :: rest
    else (k', v') :: btreeInsert k v rest

/-- Building a `BTreeMap` by successive insertion of a sequence of
key/value pairs (later insertions of an existing key overwrite). -/
def btreeOfList (l : List (String × α)) : List (String × α) :=
  l.foldl (fun m p => btreeInsert p.1 p.2 m) []

/-- Embedding of `Directive` from `src/lib.rs`: the `arguments` field (serialized with
`serialize_arguments`) is in the visible source; the directive's `name`
is modelled from the spec ("Directive: name, ordered argument list"). -/
structure Directive (T : Type) where
  name : T
  arguments : List (T × Value T)

/-- Embedding of `TypeCondition` from `src/query/ast.rs`. -/
inductive TypeCondition (T : Type) where
  | on (name : T) : TypeCondition T

/-- Embedding of `VariableDefinition` from `src/query/ast.rs`. -/
structure VariableDefinition (T : Type) where
  position : Pos
  name : T
  var_type : Typ T
  default_value : Option (Value T)

/-- Embedding of `FragmentSpread` from `src/query/ast.rs`. -/
structure FragmentSpread (T : Type) where
  position : Pos
  fragment_name : T
  directives : List (Directive T)

mutual
/-- Embedding of `SelectionSet` from `src/query/ast.rs`: a span kept for diagnostics
and the ordered selections. -/
inductive SelectionSet (T : Type) where
  | mk (span : Pos × Pos) (items : List (Selection T)) : SelectionSet T

/-- Embedding of `Selection` from `src/query/ast.rs`. -/
inductive Selection (T : Type) where
  | field (f : Field T) : Selection T
  | fragmentSpread (s : FragmentSpread T) : Selection T
  | inlineFragment (f : InlineFragment T) : Selection T

/-- Embedding of `Field` from `src/query/ast.rs`. -/
inductive Field (T : Type) where
  | mk (position : Pos) (aliasName : Option T) (name : T)
      (arguments : List (T × Value T)) (directives : List (Directive T))
      (selection_set : SelectionSet T) : Field T

/-- Embedding of `InlineFragment` from `src/query/ast.rs`. -/
inductive InlineFragment (T : Type) where
  | mk (position : Pos) (type_condition : Option (TypeCondition T))
      (directives : List (Directive T)) (selection_set : SelectionSet T) :
      InlineFragment T
end

def SelectionSet.span : SelectionSet T → Pos × Pos
  | .mk sp _ => sp

def SelectionSet.items : SelectionSet T → List (Selection T)
  | .mk _ its => its

def Field.position : Field T → Pos
  | .mk p _ _ _ _ _ => p

/-- Accessor for the field's `alias` (named `aliasName` here because
`alias` is reserved in the proof language). -/
def Field.aliasName : Field T → Option T
  | .mk _ a _ _ _ _ => a

def Field.name : Field T → T
  | .mk _ _ n _ _ _ => n

def Field.arguments : Field T → List (T × Value T)
  | .mk _ _ _ args _ _ => args

def Field.directives : Field T → List (Directive T)
  | .mk _ _ _ _ ds _ => ds

def Field.selection_set : Field T → SelectionSet T
  | .mk _ _ _ _ _ ss => ss

def InlineFragment.position : InlineFragment T → Pos
  | .mk p _ _ _ => p

def InlineFragment.type_condition : InlineFragment T → Option (TypeCondition T)
  | .mk _ tc _ _ => tc

def InlineFragment.directives : InlineFragment T → List (Directive T)
  | .mk _ _ ds _ => ds

def InlineFragment.selection_set : InlineFragment T → SelectionSet T
  | .mk _ _ _ ss => ss

/-- Embedding of `Query` from `src/query/ast.rs`. -/
structure Query (T : Type) where
  position : Pos
  name : Option T
  variable_definitions : List (VariableDefinition T)
  directives : List (Directive T)
  selection_set : SelectionSet T

/-- Embedding of `Mutation` from `src/query/ast.rs`. -/
structure Mutation (T : Type) where
  position : Pos
  name : Option T
  variable_definitions : List (VariableDefinition T)
  directives : List (Directive T)
  selection_set : SelectionSet T

/-- Embedding of `Subscription` from `src/query/ast.rs`. -/
structure Subscription (T : Type) where
  position : Pos
  name : Option T
  variable_definitions : List (VariableDefinition T)
  directives : List (Directive T)
  selection_set : SelectionSet T

/-- Embedding of `OperationDefinition` from `src/query/ast.rs`. -/
inductive OperationDefinition (T : Type) where
  | selectionSet (s : SelectionSet T) : OperationDefinition T
  | query (q : Query T) : OperationDefinition T
  | mutation (m : Mutation T) : OperationDefinition T
  | subscription (s : Subscription T) : OperationDefinition T

/-- Embedding of `FragmentDefinition` from `src/query/ast.rs`. -/
structure FragmentDefinition (T : Type) where
  position : Pos
  name : T
  type_condition : TypeCondition T
  directives : List (Directive T)
  selection_set : SelectionSet T

/-- Embedding of `Definition` from `src/query/ast.rs`. -/
inductive Definition (T : Type) where
  | operation (o : OperationDefinition T) : Definition T
  | fragment (f : FragmentDefinition T) : Definition T

/-- Embedding of `Document` from `src/query/ast.rs`. -/
structure Document (T : Type) where
  definitions : List (Definition T)

/-- Embedding of `Document::into_static` from `src/query/ast.rs`: offered only on the
owned instantiation (`impl<'a> Document<'a, String>`), it transmutes the
phantom lifetime away and leaves every field value untouched, so on the
data it is the identity. -/
def Document.into_static (d : Document String) : Document String := d

/-! Serialization mapper, at the owned instantiation `T = String`.
Each function below models the serde-derived (or hand-written)
`Serialize` impl of the corresponding Rust type, composed with a JSON
emitter; `#[serde(skip)]` position fields are not emitted, internally
tagged enums prepend their tag entry to the entries of the payload. -/

/-- Model of `crate::common::serialize_name` / `NameKind` (used by
`TypeCondition::serialize` in the visible source): a GraphQL Name is
wrapped as a two-key object with kind `Name` and the text as value.
Modelled from the spec for the part outside the visible source. -/
def serialize_name (n : String) : Json :=
  .obj [("kind", .str "Name"), ("value", .str n)]

/-- Modelled from the spec: `crate::common::serialize_optional_name` is
outside the visible source; per the spec an absent optional Name field
is omitted from the output (no key), a present one is wrapped like a
name.  Returns the entry list contributed to the surrounding object. -/
def optionalNameEntry (key : String) : Option String → List (String × Json)
  | none => []
  | some n => [(key, serialize_name n)]

mutual
/-- Serialization of a literal `Value` (spec §4.2: structural, with
`Object` emitting its `BTreeMap` entries, which iterate in ascending key
order, as a JSON object). -/
def serializeValue : Value String → Json
  | .var n => .str n
  | .int n => .num n
  | .string s => .str s
  | .boolean b => .bool b
  | .null => .null
  | .enum n => .str n
  | .list vs => .arr (serializeValueList vs)
  | .object es => .obj (serializeValueEntries es)

def serializeValueList : List (Value String) → List Json
  | [] => []
  | v :: vs => serializeValue v :: serializeValueList vs

def serializeValueEntries : List (String × Value String) → List (String × Json)
  | [] => []
  | (k, v) :: es => (k, serializeValue v) :: serializeValueEntries es
end

/-- Modelled from the spec: the body of `serialize_arguments` is elided
(`unimplemented!()` placeholder) in the visible `src/lib.rs`; per the
spec an argument list serializes "preserving declared order as a
sequence of name/value argument objects". -/
def serialize_arguments (args : List (String × Value String)) : Json :=
  .arr (args.map fun p => .obj [("name", serialize_name p.1), ("value", serializeValue p.2)])

/-- Serialization of `Directive` (`src/lib.rs`): the `arguments` field
uses `serialize_arguments`; the name entry is modelled from the spec. -/
def serializeDirective (d : Directive String) : Json :=
  .obj [("name", serialize_name d.name), ("arguments", serialize_arguments d.arguments)]

/-- The hand-written `TypeCondition::serialize` of `src/query/ast.rs`:
a map of exactly two entries, kind `NamedType` and the wrapped name. -/
def serializeTypeCondition : TypeCondition String → Json
  | .on v => .obj [("kind", .str "NamedType"), ("value", serialize_name v)]

/-- Modelled from the spec: serialization of the external `Type`
reference (named / list / non-null), not fixed by the visible source. -/
def serializeType : Typ String → Json
  | .namedType n => .obj [("kind", .str "NamedType"), ("value", serialize_name n)]
  | .listType t => .obj [("kind", .str "ListType"), ("value", serializeType t)]
  | .nonNullType t => .obj [("kind", .str "NonNullType"), ("value", serializeType t)]

/-- Derived serialization of `VariableDefinition` (camelCase keys,
position skipped, `default_value` an ordinary `Option` field, hence
`null` when absent). -/
def serializeVariableDefinition (vd : VariableDefinition String) : Json :=
  .obj [("name", serialize_name vd.name),
        ("varType", serializeType vd.var_type),
        ("defaultValue", match vd.default_value with
          | none => Json.null
          | some v => serializeValue v)]

/-- Entries of the derived `FragmentSpread` map (camelCase, position
skipped, `fragment_name` rendered through `serialize_name`). -/
def fragmentSpreadEntries (s : FragmentSpread String) : List (String × Json) :=
  [("fragmentName", serialize_name s.fragment_name),
   ("directives", .arr (s.directives.map serializeDirective))]

mutual
/-- Entries of the derived `SelectionSet` map: the span is skipped and
`items` is renamed to `selections`. -/
def selectionSetEntries : SelectionSet String → List (String × Json)
  | .mk _ items => [("selections", .arr (serializeSelectionList items))]

def serializeSelectionList : List (Selection String) → List Json
  | [] => []
  | s :: ss => serializeSelection s :: serializeSelectionList ss

/-- Derived serialization of `Selection`: internally tagged with
`kind`, the variant name used verbatim as tag value. -/
def serializeSelection : Selection String → Json
  | .field f => .obj (("kind", .str "Field") :: fieldEntries f)
  | .fragmentSpread s => .obj (("kind", .str "FragmentSpread") :: fragmentSpreadEntries s)
  | .inlineFragment f => .obj (("kind", .str "InlineFragment") :: inlineFragmentEntries f)

/-- Entries of the derived `Field` map: position skipped, optional
alias via `serialize_optional_name` (omitted when absent), name
wrapped, arguments via `serialize_arguments`, camelCase keys. -/
def fieldEntries : Field String → List (String × Json)
  | .mk _ al n args dirs ss =>
      optionalNameEntry "alias" al ++
      [("name", serialize_name n),
       ("arguments", serialize_arguments args),
       ("directives", .arr (dirs.map serializeDirective)),
       ("selectionSet", .obj (selectionSetEntries ss))]

/-- Entries of the derived `InlineFragment` map: position skipped,
`type_condition` an ordinary `Option` field (hence `null` when absent),
camelCase keys. -/
def inlineFragmentEntries : InlineFragment String → List (String × Json)
  | .mk _ tc dirs ss =>
      [("typeCondition", match tc with
          | none => Json.null
          | some t => serializeTypeCondition t),
       ("directives", .arr (dirs.map serializeDirective)),
       ("selectionSet", .obj (selectionSetEntries ss))]
end

/-- Derived serialization of a standalone `SelectionSet`. -/
def serializeSelectionSet (ss : SelectionSet String) : Json :=
  .obj (selectionSetEntries ss)

/-- Derived serialization of a standalone `Field` (its struct map,
without the `kind` tag that `Selection` prepends). -/
def serializeField (f : Field String) : Json :=
  .obj (fieldEntries f)

/-- Derived serialization of a standalone `InlineFragment`. -/
def serializeInlineFragment (f : InlineFragment String) : Json :=
  .obj (inlineFragmentEntries f)

/-- Entries of the derived `Query` map: position skipped, optional name
omitted when absent, camelCase keys. -/
def queryEntries (q : Query String) : List (String × Json) :=
  optionalNameEntry "name" q.name ++
  [("variableDefinitions", .arr (q.variable_definitions.map serializeVariableDefinition)),
   ("directives", .arr (q.directives.map serializeDirective)),
   ("selectionSet", serializeSelectionSet q.selection_set)]

/-- Entries of the derived `Mutation` map. -/
def mutationEntries (m : Mutation String) : List (String × Json) :=
  optionalNameEntry "name" m.name ++
  [("variableDefinitions", .arr (m.variable_definitions.map serializeVariableDefinition)),
   ("directives", .arr (m.directives.map serializeDirective)),
   ("selectionSet", serializeSelectionSet m.selection_set)]

/-- Entries of the derived `Subscription` map. -/
def subscriptionEntries (s : Subscription String) : List (String × Json) :=
  optionalNameEntry "name" s.name ++
  [("variableDefinitions", .arr (s.variable_definitions.map serializeVariableDefinition)),
   ("directives", .arr (s.directives.map serializeDirective)),
   ("selectionSet", serializeSelectionSet s.selection_set)]

/-- Derived serialization of `Query` as a standalone struct map. -/
def serializeQuery (q : Query String) : Json :=
  .obj (queryEntries q)

/-- Derived serialization of `Mutation` as a standalone struct map. -/
def serializeMutation (m : Mutation String) : Json :=
  .obj (mutationEntries m)

/-- Derived serialization of `Subscription` as a standalone struct map. -/
def serializeSubscription (s : Subscription String) : Json :=
  .obj (subscriptionEntries s)

/-- Entries of the derived `OperationDefinition` map: internally tagged
with `operation`, camelCase variant names as tag values, the payload's
entries following the tag. -/
def operationDefinitionEntries : OperationDefinition String → List (String × Json)
  | .selectionSet ss => ("operation", .str "selectionSet") :: selectionSetEntries ss
  | .query q => ("operation", .str "query") :: queryEntries q
  | .mutation m => ("operation", .str "mutation") :: mutationEntries m
  | .subscription s => ("operation", .str "subscription") :: subscriptionEntries s

/-- Entries of the derived `FragmentDefinition` map: position skipped,
name wrapped, camelCase keys. -/
def fragmentDefinitionEntries (fd : FragmentDefinition String) : List (String × Json) :=
  [("name", serialize_name fd.name),
   ("typeCondition", serializeTypeCondition fd.type_condition),
   ("directives", .arr (fd.directives.map serializeDirective)),
   ("selectionSet", serializeSelectionSet fd.selection_set)]

/-- Derived serialization of `Definition`: internally tagged with
`kind`, the reference-grammar names as tag values. -/
def serializeDefinition : Definition String → Json
  | .operation od => .obj (("kind", .str "OperationDefinition") :: operationDefinitionEntries od)
  | .fragment fd => .obj (("kind", .str "FragmentDefinition") :: fragmentDefinitionEntries fd)

/-- Derived serialization of the root `Document`. -/
def serializeDocument (d : Document String) : Json :=
  .obj [("definitions", .arr (d.definitions.map serializeDefinition))]

mutual
/-- Rendering of serialized JSON to its textual byte form (the
`serde_json::to_string` step of the repository's test). -/
def Json.render : Json → String
  | .null => "null"
  | .bool b => if b then "true" else "false"
  | .num n => toString n
  | .str s => "\"" ++ s ++ "\""
  | .arr items => "[" ++ Json.renderList items ++ "]"
  | .obj es => "\x7b" ++ Json.renderEntries es ++ "\x7d"

def Json.renderList : List Json → String
  | [] => ""
  | [j] => Json.render j
  | j :: rest => Json.render j ++ "," ++ Json.renderList rest

def Json.renderEntries : List (String × Json) → String
  | [] => ""
  | [(k, v)] => "\"" ++ k ++ "\":" ++ Json.render v
  | (k, v) :: rest => "\"" ++ k ++ "\":" ++ Json.render v ++ "," ++ Json.renderEntries rest
end

/-! Serialization against an abstract fallible emitter.  The serde
`Serialize` impls are generic in the `Serializer`; this section models
serialization against any structured-data emitter whose operations can
fail with the emitter's own error type, mirroring the same field rules
as the pure functions above. -/

/-- Abstract structured-data emitter (a serde `Serializer`): each
emitting operation either yields an output value or fails with the
emitter's error type `ε`. -/
structure Emitter (ε ω : Type) where
  emitNull : Except ε ω
  emitBool : Bool → Except ε ω
  emitInt : Int → Except ε ω
  emitStr : String → Except ε ω
  emitArr : List ω → Except ε ω
  emitObj : List (String × ω) → Except ε ω

/-- Relabel an emitter's errors through `f`. -/
def Emitter.mapErr (E : Emitter ε ω) (f : ε → ε') : Emitter ε' ω where
  emitNull := E.emitNull.mapError f
  emitBool b := (E.emitBool b).mapError f
  emitInt n := (E.emitInt n).mapError f
  emitStr s := (E.emitStr s).mapError f
  emitArr l := (E.emitArr l).mapError f
  emitObj l := (E.emitObj l).mapError f

/-- Emit a wrapped Name object. -/
def serializeNameE (E : Emitter ε ω) (n : String) : Except ε ω :=
  (E.emitStr "Name").bind fun k =>
    (E.emitStr n).bind fun v => E.emitObj [("kind", k), ("value", v)]

/-- Emit the entry list contributed by an optional Name field. -/
def optionalNameEntryE (E : Emitter ε ω) (key : String) :
    Option String → Except ε (List (String × ω))
  | none => .ok []
  | some n => (serializeNameE E n).bind fun w => .ok [(key, w)]

mutual
def serializeValueE (E : Emitter ε ω) : Value String → Except ε ω
  | .var n => E.emitStr n
  | .int n => E.emitInt n
  | .string s => E.emitStr s
  | .boolean b => E.emitBool b
  | .null => E.emitNull
  | .enum n => E.emitStr n
  | .list vs => (serializeValueListE E vs).bind E.emitArr
  | .object es => (serializeValueEntriesE E es).bind E.emitObj

def serializeValueListE (E : Emitter ε ω) : List (Value String) → Except ε (List ω)
  | [] => .ok []
  | v :: vs =>
    (serializeValueE E v).bind fun w =>
      (serializeValueListE E vs).bind fun ws => .ok (w :: ws)

def serializeValueEntriesE (E : Emitter ε ω) :
    List (String × Value String) → Except ε (List (String × ω))
  | [] => .ok []
  | (k, v) :: es =>
    (serializeValueE E v).bind fun w =>
      (serializeValueEntriesE E es).bind fun ws => .ok ((k, w) :: ws)
end

/-- Emit the ordered argument objects of an argument list. -/
def serializeArgumentListE (E : Emitter ε ω) :
    List (String × Value String) → Except ε (List ω)
  | [] => .ok []
  | (n, v) :: rest =>
    (serializeNameE E n).bind fun nw =>
      (serializeValueE E v).bind fun vw =>
        (E.emitObj [("name", nw), ("value", vw)]).bind fun aw =>
          (serializeArgumentListE E rest).bind fun ws => .ok (aw :: ws)

/-- Function `serialize_arguments` against an abstract emitter. -/
def serializeArgumentsE (E : Emitter ε ω) (args : List (String × Value String)) :
    Except ε ω :=
  (serializeArgumentListE E args).bind E.emitArr

/-- Serialization of `Directive` against an abstract emitter. -/
def serializeDirectiveE (E : Emitter ε ω) (d : Directive String) : Except ε ω :=
  (serializeNameE E d.name).bind fun nw =>
    (serializeArgumentsE E d.arguments).bind fun aw =>
      E.emitObj [("name", nw), ("arguments", aw)]

def serializeDirectiveListE (E : Emitter ε ω) : List (Directive String) → Except ε (List ω)
  | [] => .ok []
  | d :: ds =>
    (serializeDirectiveE E d).bind fun w =>
      (serializeDirectiveListE E ds).bind fun ws => .ok (w :: ws)

/-- Impl `TypeCondition::serialize` against an abstract emitter. -/
def serializeTypeConditionE (E : Emitter ε ω) : TypeCondition String → Except ε ω
  | .on v =>
    (E.emitStr "NamedType").bind fun kw =>
      (serializeNameE E v).bind fun vw =>
        E.emitObj [("kind", kw), ("value", vw)]

def serializeTypeE (E : Emitter ε ω) : Typ String → Except ε ω
  | .namedType n =>
    (E.emitStr "NamedType").bind fun kw =>
      (serializeNameE E n).bind fun vw => E.emitObj [("kind", kw), ("value", vw)]
  | .listType t =>
    (E.emitStr "ListType").bind fun kw =>
      (serializeTypeE E t).bind fun vw => E.emitObj [("kind", kw), ("value", vw)]
  | .nonNullType t =>
    (E.emitStr "NonNullType").bind fun kw =>
      (serializeTypeE E t).bind fun vw => E.emitObj [("kind", kw), ("value", vw)]

def serializeVariableDefinitionE (E : Emitter ε ω) (vd : VariableDefinition String) :
    Except ε ω :=
  (serializeNameE E vd.name).bind fun nw =>
    (serializeTypeE E vd.var_type).bind fun tw =>
      (match vd.default_value with
        | none => E.emitNull
        | some v => serializeValueE E v).bind fun dw =>
        E.emitObj [("name", nw), ("varType", tw), ("defaultValue", dw)]

def serializeVariableDefinitionListE (E : Emitter ε ω) :
    List (VariableDefinition String) → Except ε (List ω)
  | [] => .ok []
  | vd :: vds =>
    (serializeVariableDefinitionE E vd).bind fun w =>
      (serializeVariableDefinitionListE E vds).bind fun ws => .ok (w :: ws)

def fragmentSpreadEntriesE (E : Emitter ε ω) (s : FragmentSpread String) :
    Except ε (List (String × ω)) :=
  (serializeNameE E s.fragment_name).bind fun nw =>
    (serializeDirectiveListE E s.directives).bind fun ds =>
      (E.emitArr ds).bind fun dw =>
        .ok [("fragmentName", nw), ("directives", dw)]

mutual
def selectionSetEntriesE (E : Emitter ε ω) : SelectionSet String → Except ε (List (String × ω))
  | .mk _ items =>
    (serializeSelectionListE E items).bind fun ss =>
      (E.emitArr ss).bind fun sw => .ok [("selections", sw)]

def serializeSelectionListE (E : Emitter ε ω) : List (Selection String) → Except ε (List ω)
  | [] => .ok []
  | s :: ss =>
    (serializeSelectionE E s).bind fun w =>
      (serializeSelectionListE E ss).bind fun ws => .ok (w :: ws)

def serializeSelectionE (E : Emitter ε ω) : Selection String → Except ε ω
  | .field f =>
    (E.emitStr "Field").bind fun kw =>
      (fieldEntriesE E f).bind fun es => E.emitObj (("kind", kw) :: es)
  | .fragmentSpread s =>
    (E.emitStr "FragmentSpread").bind fun kw =>
      (fragmentSpreadEntriesE E s).bind fun es => E.emitObj (("kind", kw) :: es)
  | .inlineFragment f =>
    (E.emitStr "InlineFragment").bind fun kw =>
      (inlineFragmentEntriesE E f).bind fun es => E.emitObj (("kind", kw) :: es)

def fieldEntriesE (E : Emitter ε ω) : Field String → Except ε (List (String × ω))
  | .mk _ al n args dirs ss =>
    (optionalNameEntryE E "alias" al).bind fun ae =>
      (serializeNameE E n).bind fun nw =>
        (serializeArgumentsE E args).bind fun aw =>
          (serializeDirectiveListE E dirs).bind fun ds =>
            (E.emitArr ds).bind fun dw =>
              (selectionSetEntriesE E ss).bind fun se =>
                (E.emitObj se).bind fun sw =>
                  .ok (ae ++ [("name", nw), ("arguments", aw),
                              ("directives", dw), ("selectionSet", sw)])

def inlineFragmentEntriesE (E : Emitter ε ω) : InlineFragment String → Except ε (List (String × ω))
  | .mk _ tc dirs ss =>
    (match tc with
      | none => E.emitNull
      | some t => serializeTypeConditionE E t).bind fun tw =>
      (serializeDirectiveListE E dirs).bind fun ds =>
        (E.emitArr ds).bind fun dw =>
          (selectionSetEntriesE E ss).bind fun se =>
            (E.emitObj se).bind fun sw =>
              .ok [("typeCondition", tw), ("directives", dw), ("selectionSet", sw)]
end

def queryEntriesE (E : Emitter ε ω) (q : Query String) : Except ε (List (String × ω)) :=
  (optionalNameEntryE E "name" q.name).bind fun ne =>
    (serializeVariableDefinitionListE E q.variable_definitions).bind fun vs =>
      (E.emitArr vs).bind fun vw =>
        (serializeDirectiveListE E q.directives).bind fun ds =>
          (E.emitArr ds).bind fun dw =>
            (selectionSetEntriesE E q.selection_set).bind fun se =>
              (E.emitObj se).bind fun sw =>
                .ok (ne ++ [("variableDefinitions", vw), ("directives", dw),
                            ("selectionSet", sw)])

def mutationEntriesE (E : Emitter ε ω) (m : Mutation String) : Except ε (List (String × ω)) :=
  (optionalNameEntryE E "name" m.name).bind fun ne =>
    (serializeVariableDefinitionListE E m.variable_definitions).bind fun vs =>
      (E.emitArr vs).bind fun vw =>
        (serializeDirectiveListE E m.directives).bind fun ds =>
          (E.emitArr ds).bind fun dw =>
            (selectionSetEntriesE E m.selection_set).bind fun se =>
              (E.emitObj se).bind fun sw =>
                .ok (ne ++ [("variableDefinitions", vw), ("directives", dw),
                            ("selectionSet", sw)])

def subscriptionEntriesE (E : Emitter ε ω) (s : Subscription String) :
    Except ε (List (String × ω)) :=
  (optionalNameEntryE E "name" s.name).bind fun ne =>
    (serializeVariableDefinitionListE E s.variable_definitions).bind fun vs =>
      (E.emitArr vs).bind fun vw =>
        (serializeDirectiveListE E s.directives).bind fun ds =>
          (E.emitArr ds).bind fun dw =>
            (selectionSetEntriesE E s.selection_set).bind fun se =>
              (E.emitObj se).bind fun sw =>
                .ok (ne ++ [("variableDefinitions", vw), ("directives", dw),
                            ("selectionSet", sw)])

def operationDefinitionEntriesE (E : Emitter ε ω) :
    OperationDefinition String → Except ε (List (String × ω))
  | .selectionSet ss =>
    (E.emitStr "selectionSet").bind fun tw =>
      (selectionSetEntriesE E ss).bind fun es => .ok (("operation", tw) :: es)
  | .query q =>
    (E.emitStr "query").bind fun tw =>
      (queryEntriesE E q).bind fun es => .ok (("operation", tw) :: es)
  | .mutation m =>
    (E.emitStr "mutation").bind fun tw =>
      (mutationEntriesE E m).bind fun es => .ok (("operation", tw) :: es)
  | .subscription s =>
    (E.emitStr "subscription").bind fun tw =>
      (subscriptionEntriesE E s).bind fun es => .ok (("operation", tw) :: es)

def fragmentDefinitionEntriesE (E : Emitter ε ω) (fd : FragmentDefinition String) :
    Except ε (List (String × ω)) :=
  (serializeNameE E fd.name).bind fun nw =>
    (serializeTypeConditionE E fd.type_condition).bind fun tw =>
      (serializeDirectiveListE E fd.directives).bind fun ds =>
        (E.emitArr ds).bind fun dw =>
          (selectionSetEntriesE E fd.selection_set).bind fun se =>
            (E.emitObj se).bind fun sw =>
              .ok [("name", nw), ("typeCondition", tw), ("directives", dw),
                   ("selectionSet", sw)]

def serializeDefinitionE (E : Emitter ε ω) : Definition String → Except ε ω
  | .operation od =>
    (E.emitStr "OperationDefinition").bind fun kw =>
      (operationDefinitionEntriesE E od).bind fun es => E.emitObj (("kind", kw) :: es)
  | .fragment fd =>
    (E.emitStr "FragmentDefinition").bind fun kw =>
      (fragmentDefinitionEntriesE E fd).bind fun es => E.emitObj (("kind", kw) :: es)

def serializeDefinitionListE (E : Emitter ε ω) : List (Definition String) → Except ε (List ω)
  | [] => .ok []
  | d :: ds =>
    (serializeDefinitionE E d).bind fun w =>
      (serializeDefinitionListE E ds).bind fun ws => .ok (w :: ws)

/-- Serialization of `Document` against an abstract emitter. -/
def serializeDocumentE (E : Emitter ε ω) (d : Document String) : Except ε ω :=
  (serializeDefinitionListE E d.definitions).bind fun ds =>
    (E.emitArr ds).bind fun dw => E.emitObj [("definitions", dw)]

theorem except_bind_mapError (x : Except ε α) (g : α → Except ε β) (f : ε → ε') :
    (x.bind g).mapError f = (x.mapError f).bind fun a => (g a).mapError f := by
  cases x <;> rfl

theorem except_ok_mapError (a : α) (f : ε → ε') :
    (Except.ok a : Except ε α).mapError f = .ok a := rfl

theorem mapErr_emitNull (E : Emitter ε ω) (f : ε → ε') :
    (E.mapErr f).emitNull = E.emitNull.mapError f := rfl

theorem mapErr_emitBool (E : Emitter ε ω) (f : ε → ε') :
    (E.mapErr f).emitBool = fun b => (E.emitBool b).mapError f := rfl

theorem mapErr_emitInt (E : Emitter ε ω) (f : ε → ε') :
    (E.mapErr f).emitInt = fun n => (E.emitInt n).mapError f := rfl

theorem mapErr_emitStr (E : Emitter ε ω) (f : ε → ε') :
    (E.mapErr f).emitStr = fun s => (E.emitStr s).mapError f := rfl

theorem mapErr_emitArr (E : Emitter ε ω) (f : ε → ε') :
    (E.mapErr f).emitArr = fun l => (E.emitArr l).mapError f := rfl

theorem mapErr_emitObj (E : Emitter ε ω) (f : ε → ε') :
    (E.mapErr f).emitObj = fun l => (E.emitObj l).mapError f := rfl

theorem serializeNameE_mapErr (E : Emitter ε ω) (f : ε → ε') (n : String) :
    serializeNameE (E.mapErr f) n = (serializeNameE E n).mapError f := by
  simp [serializeNameE, mapErr_emitNull, mapErr_emitBool, mapErr_emitInt, mapErr_emitStr, mapErr_emitArr, mapErr_emitObj, except_bind_mapError]

theorem optionalNameEntryE_mapErr (E : Emitter ε ω) (f : ε → ε') (key : String)
    (o : Option String) :
    optionalNameEntryE (E.mapErr f) key o = (optionalNameEntryE E key o).mapError f := by
  cases o <;>
    simp [optionalNameEntryE, serializeNameE_mapErr, except_bind_mapError,
      except_ok_mapError]

mutual
theorem serializeValueE_mapErr (E : Emitter ε ω) (f : ε → ε') :
    ∀ v : Value String, serializeValueE (E.mapErr f) v = (serializeValueE E v).mapError f
  | .var n => by simp [serializeValueE, mapErr_emitNull, mapErr_emitBool, mapErr_emitInt, mapErr_emitStr, mapErr_emitArr, mapErr_emitObj]
  | .int n => by simp [serializeValueE, mapErr_emitNull, mapErr_emitBool, mapErr_emitInt, mapErr_emitStr, mapErr_emitArr, mapErr_emitObj]
  | .string s => by simp [serializeValueE, mapErr_emitNull, mapErr_emitBool, mapErr_emitInt, mapErr_emitStr, mapErr_emitArr, mapErr_emitObj]
  | .boolean b => by simp [serializeValueE, mapErr_emitNull, mapErr_emitBool, mapErr_emitInt, mapErr_emitStr, mapErr_emitArr, mapErr_emitObj]
  | .null => by simp [serializeValueE, mapErr_emitNull, mapErr_emitBool, mapErr_emitInt, mapErr_emitStr, mapErr_emitArr, mapErr_emitObj]
  | .enum n => by simp [serializeValueE, mapErr_emitNull, mapErr_emitBool, mapErr_emitInt, mapErr_emitStr, mapErr_emitArr, mapErr_emitObj]
  | .list vs => by
    simp [serializeValueE, serializeValueListE_mapErr E f vs, except_bind_mapError,
      mapErr_emitNull, mapErr_emitBool, mapErr_emitInt, mapErr_emitStr, mapErr_emitArr, mapErr_emitObj]
  | .object es => by
    simp [serializeValueE, serializeValueEntriesE_mapErr E f es, except_bind_mapError,
      mapErr_emitNull, mapErr_emitBool, mapErr_emitInt, mapErr_emitStr, mapErr_emitArr, mapErr_emitObj]

theorem serializeValueListE_mapErr (E : Emitter ε ω) (f : ε → ε') :
    ∀ vs : List (Value String),
      serializeValueListE (E.mapErr f) vs = (serializeValueListE E vs).mapError f
  | [] => by simp [serializeValueListE, except_ok_mapError]
  | v :: vs => by
    simp [serializeValueListE, serializeValueE_mapErr E f v,
      serializeValueListE_mapErr E f vs, except_bind_mapError, except_ok_mapError]

theorem serializeValueEntriesE_mapErr (E : Emitter ε ω) (f : ε → ε') :
    ∀ es : List (String × Value String),
      serializeValueEntriesE (E.mapErr f) es = (serializeValueEntriesE E es).mapError f
  | [] => by simp [serializeValueEntriesE, except_ok_mapError]
  | (k, v) :: es => by
    simp [serializeValueEntriesE, serializeValueE_mapErr E f v,
      serializeValueEntriesE_mapErr E f es, except_bind_mapError, except_ok_mapError]
end

theorem serializeArgumentListE_mapErr (E : Emitter ε ω) (f : ε → ε') :
    ∀ args : List (String × Value String),
      serializeArgumentListE (E.mapErr f) args = (serializeArgumentListE E args).mapError f
  | [] => by simp [serializeArgumentListE, except_ok_mapError]
  | (n, v) :: rest => by
    simp [serializeArgumentListE, serializeNameE_mapErr, serializeValueE_mapErr,
      serializeArgumentListE_mapErr E f rest, except_bind_mapError, except_ok_mapError,
      mapErr_emitNull, mapErr_emitBool, mapErr_emitInt, mapErr_emitStr, mapErr_emitArr, mapErr_emitObj]

theorem serializeArgumentsE_mapErr (E : Emitter ε ω) (f : ε → ε')
    (args : List (String × Value String)) :
    serializeArgumentsE (E.mapErr f) args = (serializeArgumentsE E args).mapError f := by
  simp [serializeArgumentsE, serializeArgumentListE_mapErr, except_bind_mapError,
    mapErr_emitNull, mapErr_emitBool, mapErr_emitInt, mapErr_emitStr, mapErr_emitArr, mapErr_emitObj]

theorem serializeDirectiveE_mapErr (E : Emitter ε ω) (f : ε → ε') (d : Directive String) :
    serializeDirectiveE (E.mapErr f) d = (serializeDirectiveE E d).mapError f := by
  simp [serializeDirectiveE, serializeNameE_mapErr, serializeArgumentsE_mapErr,
    except_bind_mapError, mapErr_emitNull, mapErr_emitBool, mapErr_emitInt, mapErr_emitStr, mapErr_emitArr, mapErr_emitObj]

theorem serializeDirectiveListE_mapErr (E : Emitter ε ω) (f : ε → ε') :
    ∀ ds : List (Directive String),
      serializeDirectiveListE (E.mapErr f) ds = (serializeDirectiveListE E ds).mapError f
  | [] => by simp [serializeDirectiveListE, except_ok_mapError]
  | d :: ds => by
    simp [serializeDirectiveListE, serializeDirectiveE_mapErr,
      serializeDirectiveListE_mapErr E f ds, except_bind_mapError, except_ok_mapError]

theorem serializeTypeConditionE_mapErr (E : Emitter ε ω) (f : ε → ε')
    (tc : TypeCondition String) :
    serializeTypeConditionE (E.mapErr f) tc = (serializeTypeConditionE E tc).mapError f := by
  cases tc
  simp [serializeTypeConditionE, serializeNameE_mapErr, except_bind_mapError,
    mapErr_emitNull, mapErr_emitBool, mapErr_emitInt, mapErr_emitStr, mapErr_emitArr, mapErr_emitObj]

theorem serializeTypeE_mapErr (E : Emitter ε ω) (f : ε → ε') :
    ∀ t : Typ String, serializeTypeE (E.mapErr f) t = (serializeTypeE E t).mapError f
  | .namedType n => by
    simp [serializeTypeE, serializeNameE_mapErr, except_bind_mapError, mapErr_emitNull, mapErr_emitBool, mapErr_emitInt, mapErr_emitStr, mapErr_emitArr, mapErr_emitObj]
  | .listType t => by
    simp [serializeTypeE, serializeTypeE_mapErr E f t, except_bind_mapError,
      mapErr_emitNull, mapErr_emitBool, mapErr_emitInt, mapErr_emitStr, mapErr_emitArr, mapErr_emitObj]
  | .nonNullType t => by
    simp [serializeTypeE, serializeTypeE_mapErr E f t, except_bind_mapError,
      mapErr_emitNull, mapErr_emitBool, mapErr_emitInt, mapErr_emitStr, mapErr_emitArr, mapErr_emitObj]

theorem serializeVariableDefinitionE_mapErr (E : Emitter ε ω) (f : ε → ε')
    (vd : VariableDefinition String) :
    serializeVariableDefinitionE (E.mapErr f) vd =
      (serializeVariableDefinitionE E vd).mapError f := by
  obtain ⟨p, n, t, dv⟩ := vd
  cases dv <;>
    simp [serializeVariableDefinitionE, serializeNameE_mapErr, serializeTypeE_mapErr,
      serializeValueE_mapErr, except_bind_mapError, mapErr_emitNull, mapErr_emitBool, mapErr_emitInt, mapErr_emitStr, mapErr_emitArr, mapErr_emitObj]

theorem serializeVariableDefinitionListE_mapErr (E : Emitter ε ω) (f : ε → ε') :
    ∀ vds : List (VariableDefinition String),
      serializeVariableDefinitionListE (E.mapErr f) vds =
        (serializeVariableDefinitionListE E vds).mapError f
  | [] => by simp [serializeVariableDefinitionListE, except_ok_mapError]
  | vd :: vds => by
    simp [serializeVariableDefinitionListE, serializeVariableDefinitionE_mapErr,
      serializeVariableDefinitionListE_mapErr E f vds, except_bind_mapError,
      except_ok_mapError]

theorem fragmentSpreadEntriesE_mapErr (E : Emitter ε ω) (f : ε → ε')
    (s : FragmentSpread String) :
    fragmentSpreadEntriesE (E.mapErr f) s = (fragmentSpreadEntriesE E s).mapError f := by
  simp [fragmentSpreadEntriesE, serializeNameE_mapErr, serializeDirectiveListE_mapErr,
    except_bind_mapError, except_ok_mapError, mapErr_emitNull, mapErr_emitBool, mapErr_emitInt, mapErr_emitStr, mapErr_emitArr, mapErr_emitObj]

mutual
theorem selectionSetEntriesE_mapErr (E : Emitter ε ω) (f : ε → ε') :
    ∀ ss : SelectionSet String,
      selectionSetEntriesE (E.mapErr f) ss = (selectionSetEntriesE E ss).mapError f
  | .mk sp items => by
    simp [selectionSetEntriesE, serializeSelectionListE_mapErr E f items,
      except_bind_mapError, except_ok_mapError, mapErr_emitNull, mapErr_emitBool, mapErr_emitInt, mapErr_emitStr, mapErr_emitArr, mapErr_emitObj]

theorem serializeSelectionListE_mapErr (E : Emitter ε ω) (f : ε → ε') :
    ∀ l : List (Selection String),
      serializeSelectionListE (E.mapErr f) l = (serializeSelectionListE E l).mapError f
  | [] => by simp [serializeSelectionListE, except_ok_mapError]
  | s :: ss => by
    simp [serializeSelectionListE, serializeSelectionE_mapErr E f s,
      serializeSelectionListE_mapErr E f ss, except_bind_mapError, except_ok_mapError]

theorem serializeSelectionE_mapErr (E : Emitter ε ω) (f : ε → ε') :
    ∀ s : Selection String,
      serializeSelectionE (E.mapErr f) s = (serializeSelectionE E s).mapError f
  | .field fl => by
    simp [serializeSelectionE, fieldEntriesE_mapErr E f fl, except_bind_mapError,
      mapErr_emitNull, mapErr_emitBool, mapErr_emitInt, mapErr_emitStr, mapErr_emitArr, mapErr_emitObj]
  | .fragmentSpread s => by
    simp [serializeSelectionE, fragmentSpreadEntriesE_mapErr, except_bind_mapError,
      mapErr_emitNull, mapErr_emitBool, mapErr_emitInt, mapErr_emitStr, mapErr_emitArr, mapErr_emitObj]
  | .inlineFragment fl => by
    simp [serializeSelectionE, inlineFragmentEntriesE_mapErr E f fl,
      except_bind_mapError, mapErr_emitNull, mapErr_emitBool, mapErr_emitInt, mapErr_emitStr, mapErr_emitArr, mapErr_emitObj]

theorem fieldEntriesE_mapErr (E : Emitter ε ω) (f : ε → ε') :
    ∀ fl : Field String, fieldEntriesE (E.mapErr f) fl = (fieldEntriesE E fl).mapError f
  | .mk p al n args dirs ss => by
    simp [fieldEntriesE, optionalNameEntryE_mapErr, serializeNameE_mapErr,
      serializeArgumentsE_mapErr, serializeDirectiveListE_mapErr,
      selectionSetEntriesE_mapErr E f ss, except_bind_mapError, except_ok_mapError,
      mapErr_emitNull, mapErr_emitBool, mapErr_emitInt, mapErr_emitStr, mapErr_emitArr, mapErr_emitObj]

theorem inlineFragmentEntriesE_mapErr (E : Emitter ε ω) (f : ε → ε') :
    ∀ fl : InlineFragment String,
      inlineFragmentEntriesE (E.mapErr f) fl = (inlineFragmentEntriesE E fl).mapError f
  | .mk p tc dirs ss => by
    cases tc <;>
      simp [inlineFragmentEntriesE, serializeTypeConditionE_mapErr,
        serializeDirectiveListE_mapErr, selectionSetEntriesE_mapErr E f ss,
        except_bind_mapError, except_ok_mapError, mapErr_emitNull, mapErr_emitBool, mapErr_emitInt, mapErr_emitStr, mapErr_emitArr, mapErr_emitObj]
end

theorem queryEntriesE_mapErr (E : Emitter ε ω) (f : ε → ε') (q : Query String) :
    queryEntriesE (E.mapErr f) q = (queryEntriesE E q).mapError f := by
  simp [queryEntriesE, optionalNameEntryE_mapErr, serializeVariableDefinitionListE_mapErr,
    serializeDirectiveListE_mapErr, selectionSetEntriesE_mapErr, except_bind_mapError,
    except_ok_mapError, mapErr_emitNull, mapErr_emitBool, mapErr_emitInt, mapErr_emitStr, mapErr_emitArr, mapErr_emitObj]

theorem mutationEntriesE_mapErr (E : Emitter ε ω) (f : ε → ε') (m : Mutation String) :
    mutationEntriesE (E.mapErr f) m = (mutationEntriesE E m).mapError f := by
  simp [mutationEntriesE, optionalNameEntryE_mapErr,
    serializeVariableDefinitionListE_mapErr, serializeDirectiveListE_mapErr,
    selectionSetEntriesE_mapErr, except_bind_mapError, except_ok_mapError, mapErr_emitNull, mapErr_emitBool, mapErr_emitInt, mapErr_emitStr, mapErr_emitArr, mapErr_emitObj]

theorem subscriptionEntriesE_mapErr (E : Emitter ε ω) (f : ε → ε')
    (s : Subscription String) :
    subscriptionEntriesE (E.mapErr f) s = (subscriptionEntriesE E s).mapError f := by
  simp [subscriptionEntriesE, optionalNameEntryE_mapErr,
    serializeVariableDefinitionListE_mapErr, serializeDirectiveListE_mapErr,
    selectionSetEntriesE_mapErr, except_bind_mapError, except_ok_mapError, mapErr_emitNull, mapErr_emitBool, mapErr_emitInt, mapErr_emitStr, mapErr_emitArr, mapErr_emitObj]

theorem operationDefinitionEntriesE_mapErr (E : Emitter ε ω) (f : ε → ε')
    (od : OperationDefinition String) :
    operationDefinitionEntriesE (E.mapErr f) od =
      (operationDefinitionEntriesE E od).mapError f := by
  cases od <;>
    simp [operationDefinitionEntriesE, selectionSetEntriesE_mapErr, queryEntriesE_mapErr,
      mutationEntriesE_mapErr, subscriptionEntriesE_mapErr, except_bind_mapError,
      except_ok_mapError, mapErr_emitNull, mapErr_emitBool, mapErr_emitInt, mapErr_emitStr, mapErr_emitArr, mapErr_emitObj]

theorem fragmentDefinitionEntriesE_mapErr (E : Emitter ε ω) (f : ε → ε')
    (fd : FragmentDefinition String) :
    fragmentDefinitionEntriesE (E.mapErr f) fd =
      (fragmentDefinitionEntriesE E fd).mapError f := by
  simp [fragmentDefinitionEntriesE, serializeNameE_mapErr, serializeTypeConditionE_mapErr,
    serializeDirectiveListE_mapErr, selectionSetEntriesE_mapErr, except_bind_mapError,
    except_ok_mapError, mapErr_emitNull, mapErr_emitBool, mapErr_emitInt, mapErr_emitStr, mapErr_emitArr, mapErr_emitObj]

theorem serializeDefinitionE_mapErr (E : Emitter ε ω) (f : ε → ε') (d : Definition String) :
    serializeDefinitionE (E.mapErr f) d = (serializeDefinitionE E d).mapError f := by
  cases d <;>
    simp [serializeDefinitionE, operationDefinitionEntriesE_mapErr,
      fragmentDefinitionEntriesE_mapErr, except_bind_mapError, mapErr_emitNull, mapErr_emitBool, mapErr_emitInt, mapErr_emitStr, mapErr_emitArr, mapErr_emitObj]

theorem serializeDefinitionListE_mapErr (E : Emitter ε ω) (f : ε → ε') :
    ∀ ds : List (Definition String),
      serializeDefinitionListE (E.mapErr f) ds = (serializeDefinitionListE E ds).mapError f
  | [] => by simp [serializeDefinitionListE, except_ok_mapError]
  | d :: ds => by
    simp [serializeDefinitionListE, serializeDefinitionE_mapErr,
      serializeDefinitionListE_mapErr E f ds, except_bind_mapError, except_ok_mapError]

/-- C9: serialization is uniformly parametric in the emitter's error
type — relabelling the emitter's errors relabels the serialization
result in exactly the same way, so every error the mapper returns is an
emitter error passed through verbatim and the mapper has no error kind
of its own; against an emitter that cannot fail, serialization always
succeeds. -/
theorem serialization_propagates_emitter_errors {ε ε' ω ω' : Type}
    (E : Emitter ε ω) (f : ε → ε') (d : Document String) :
    serializeDocumentE (E.mapErr f) d = (serializeDocumentE E d).mapError f ∧
    ∀ E₀ : Emitter Empty ω', ∃ w, serializeDocumentE E₀ d = .ok w := by
  constructor
  · simp [serializeDocumentE, serializeDefinitionListE_mapErr, except_bind_mapError,
      mapErr_emitNull, mapErr_emitBool, mapErr_emitInt, mapErr_emitStr, mapErr_emitArr, mapErr_emitObj]
  · intro E₀
    cases h : serializeDocumentE E₀ d with
    | ok w => exact ⟨w, rfl⟩
    | error e => exact e.elim

/-! Instantiating the abstract emitter with the (infallible) JSON value
builder recovers the pure serialization functions above, so the two
presentations describe the same mapper. -/

/-- The JSON value builder as an emitter; it cannot fail. -/
def jsonEmitter : Emitter Empty Json where
  emitNull := .ok .null
  emitBool b := .ok (.bool b)
  emitInt n := .ok (.num n)
  emitStr s := .ok (.str s)
  emitArr l := .ok (.arr l)
  emitObj l := .ok (.obj l)

theorem except_ok_bind (a : α) (g : α → Except ε β) :
    (Except.ok a : Except ε α).bind g = g a := rfl

theorem jsonEmitter_emitNull : jsonEmitter.emitNull = .ok .null := rfl

theorem jsonEmitter_emitBool : jsonEmitter.emitBool = fun b => .ok (.bool b) := rfl

theorem jsonEmitter_emitInt : jsonEmitter.emitInt = fun n => .ok (.num n) := rfl

theorem jsonEmitter_emitStr : jsonEmitter.emitStr = fun s => .ok (.str s) := rfl

theorem jsonEmitter_emitArr : jsonEmitter.emitArr = fun l => .ok (.arr l) := rfl

theorem jsonEmitter_emitObj : jsonEmitter.emitObj = fun l => .ok (.obj l) := rfl

theorem serializeNameE_json (n : String) :
    serializeNameE jsonEmitter n = .ok (serialize_name n) := rfl

theorem optionalNameEntryE_json (key : String) (o : Option String) :
    optionalNameEntryE jsonEmitter key o = .ok (optionalNameEntry key o) := by
  cases o <;> rfl

mutual
theorem serializeValueE_json :
    ∀ v : Value String, serializeValueE jsonEmitter v = .ok (serializeValue v)
  | .var n => rfl
  | .int n => rfl
  | .string s => rfl
  | .boolean b => rfl
  | .null => rfl
  | .enum n => rfl
  | .list vs => by
    simp [serializeValueE, serializeValue, serializeValueListE_json vs,
      except_ok_bind, jsonEmitter_emitNull, jsonEmitter_emitBool, jsonEmitter_emitInt, jsonEmitter_emitStr, jsonEmitter_emitArr, jsonEmitter_emitObj]
  | .object es => by
    simp [serializeValueE, serializeValue, serializeValueEntriesE_json es,
      except_ok_bind, jsonEmitter_emitNull, jsonEmitter_emitBool, jsonEmitter_emitInt, jsonEmitter_emitStr, jsonEmitter_emitArr, jsonEmitter_emitObj]

theorem serializeValueListE_json :
    ∀ vs : List (Value String),
      serializeValueListE jsonEmitter vs = .ok (serializeValueList vs)
  | [] => rfl
  | v :: vs => by
    simp [serializeValueListE, serializeValueList, serializeValueE_json v,
      serializeValueListE_json vs, except_ok_bind]

theorem serializeValueEntriesE_json :
    ∀ es : List (String × Value String),
      serializeValueEntriesE jsonEmitter es = .ok (serializeValueEntries es)
  | [] => rfl
  | (k, v) :: es => by
    simp [serializeValueEntriesE, serializeValueEntries, serializeValueE_json v,
      serializeValueEntriesE_json es, except_ok_bind]
end

theorem serializeArgumentListE_json :
    ∀ args : List (String × Value String),
      serializeArgumentListE jsonEmitter args =
        .ok (args.map fun a => .obj [("name", serialize_name a.1), ("value", serializeValue a.2)])
  | [] => rfl
  | (n, v) :: rest => by
    simp [serializeArgumentListE, serializeNameE_json, serializeValueE_json v,
      serializeArgumentListE_json rest, except_ok_bind, jsonEmitter_emitNull, jsonEmitter_emitBool, jsonEmitter_emitInt, jsonEmitter_emitStr, jsonEmitter_emitArr, jsonEmitter_emitObj]

theorem serializeArgumentsE_json (args : List (String × Value String)) :
    serializeArgumentsE jsonEmitter args = .ok (serialize_arguments args) := by
  simp [serializeArgumentsE, serialize_arguments, serializeArgumentListE_json,
    except_ok_bind, jsonEmitter_emitNull, jsonEmitter_emitBool, jsonEmitter_emitInt, jsonEmitter_emitStr, jsonEmitter_emitArr, jsonEmitter_emitObj]

theorem serializeDirectiveE_json (d : Directive String) :
    serializeDirectiveE jsonEmitter d = .ok (serializeDirective d) := by
  simp [serializeDirectiveE, serializeDirective, serializeNameE_json,
    serializeArgumentsE_json, except_ok_bind, jsonEmitter_emitNull, jsonEmitter_emitBool, jsonEmitter_emitInt, jsonEmitter_emitStr, jsonEmitter_emitArr, jsonEmitter_emitObj]

theorem serializeDirectiveListE_json :
    ∀ ds : List (Directive String),
      serializeDirectiveListE jsonEmitter ds = .ok (ds.map serializeDirective)
  | [] => rfl
  | d :: ds => by
    simp [serializeDirectiveListE, serializeDirectiveE_json,
      serializeDirectiveListE_json ds, except_ok_bind]

theorem serializeTypeConditionE_json (tc : TypeCondition String) :
    serializeTypeConditionE jsonEmitter tc = .ok (serializeTypeCondition tc) := by
  cases tc; rfl

theorem serializeTypeE_json :
    ∀ t : Typ String, serializeTypeE jsonEmitter t = .ok (serializeType t)
  | .namedType n => rfl
  | .listType t => by
    simp [serializeTypeE, serializeType, serializeTypeE_json t, except_ok_bind,
      jsonEmitter_emitNull, jsonEmitter_emitBool, jsonEmitter_emitInt,
      jsonEmitter_emitStr, jsonEmitter_emitArr, jsonEmitter_emitObj]
  | .nonNullType t => by
    simp [serializeTypeE, serializeType, serializeTypeE_json t, except_ok_bind,
      jsonEmitter_emitNull, jsonEmitter_emitBool, jsonEmitter_emitInt,
      jsonEmitter_emitStr, jsonEmitter_emitArr, jsonEmitter_emitObj]

theorem serializeVariableDefinitionE_json (vd : VariableDefinition String) :
    serializeVariableDefinitionE jsonEmitter vd = .ok (serializeVariableDefinition vd) := by
  obtain ⟨p, n, t, dv⟩ := vd
  cases dv <;>
    simp [serializeVariableDefinitionE, serializeVariableDefinition,
      serializeNameE_json, serializeTypeE_json, serializeValueE_json,
      except_ok_bind, jsonEmitter_emitNull, jsonEmitter_emitBool, jsonEmitter_emitInt, jsonEmitter_emitStr, jsonEmitter_emitArr, jsonEmitter_emitObj]

theorem serializeVariableDefinitionListE_json :
    ∀ vds : List (VariableDefinition String),
      serializeVariableDefinitionListE jsonEmitter vds =
        .ok (vds.map serializeVariableDefinition)
  | [] => rfl
  | vd :: vds => by
    simp [serializeVariableDefinitionListE, serializeVariableDefinitionE_json,
      serializeVariableDefinitionListE_json vds, except_ok_bind]

theorem fragmentSpreadEntriesE_json (s : FragmentSpread String) :
    fragmentSpreadEntriesE jsonEmitter s = .ok (fragmentSpreadEntries s) := by
  simp [fragmentSpreadEntriesE, fragmentSpreadEntries, serializeNameE_json,
    serializeDirectiveListE_json, except_ok_bind, jsonEmitter_emitNull, jsonEmitter_emitBool, jsonEmitter_emitInt, jsonEmitter_emitStr, jsonEmitter_emitArr, jsonEmitter_emitObj]

mutual
theorem selectionSetEntriesE_json :
    ∀ ss : SelectionSet String,
      selectionSetEntriesE jsonEmitter ss = .ok (selectionSetEntries ss)
  | .mk sp items => by
    simp [selectionSetEntriesE, selectionSetEntries,
      serializeSelectionListE_json items, except_ok_bind, jsonEmitter_emitNull, jsonEmitter_emitBool, jsonEmitter_emitInt, jsonEmitter_emitStr, jsonEmitter_emitArr, jsonEmitter_emitObj]

theorem serializeSelectionListE_json :
    ∀ l : List (Selection String),
      serializeSelectionListE jsonEmitter l = .ok (serializeSelectionList l)
  | [] => rfl
  | s :: ss => by
    simp [serializeSelectionListE, serializeSelectionList,
      serializeSelectionE_json s, serializeSelectionListE_json ss, except_ok_bind]

theorem serializeSelectionE_json :
    ∀ s : Selection String, serializeSelectionE jsonEmitter s = .ok (serializeSelection s)
  | .field fl => by
    simp [serializeSelectionE, serializeSelection, fieldEntriesE_json fl,
      except_ok_bind, jsonEmitter_emitNull, jsonEmitter_emitBool, jsonEmitter_emitInt, jsonEmitter_emitStr, jsonEmitter_emitArr, jsonEmitter_emitObj]
  | .fragmentSpread s => by
    simp [serializeSelectionE, serializeSelection, fragmentSpreadEntriesE_json,
      except_ok_bind, jsonEmitter_emitNull, jsonEmitter_emitBool, jsonEmitter_emitInt, jsonEmitter_emitStr, jsonEmitter_emitArr, jsonEmitter_emitObj]
  | .inlineFragment fl => by
    simp [serializeSelectionE, serializeSelection, inlineFragmentEntriesE_json fl,
      except_ok_bind, jsonEmitter_emitNull, jsonEmitter_emitBool, jsonEmitter_emitInt, jsonEmitter_emitStr, jsonEmitter_emitArr, jsonEmitter_emitObj]

theorem fieldEntriesE_json :
    ∀ fl : Field String, fieldEntriesE jsonEmitter fl = .ok (fieldEntries fl)
  | .mk p al n args dirs ss => by
    simp [fieldEntriesE, fieldEntries, optionalNameEntryE_json, serializeNameE_json,
      serializeArgumentsE_json, serializeDirectiveListE_json,
      selectionSetEntriesE_json ss, except_ok_bind, jsonEmitter_emitNull, jsonEmitter_emitBool, jsonEmitter_emitInt, jsonEmitter_emitStr, jsonEmitter_emitArr, jsonEmitter_emitObj]

theorem inlineFragmentEntriesE_json :
    ∀ fl : InlineFragment String,
      inlineFragmentEntriesE jsonEmitter fl = .ok (inlineFragmentEntries fl)
  | .mk p tc dirs ss => by
    cases tc <;>
      simp [inlineFragmentEntriesE, inlineFragmentEntries,
        serializeTypeConditionE_json, serializeDirectiveListE_json,
        selectionSetEntriesE_json ss, except_ok_bind, jsonEmitter_emitNull, jsonEmitter_emitBool, jsonEmitter_emitInt, jsonEmitter_emitStr, jsonEmitter_emitArr, jsonEmitter_emitObj]
end

theorem queryEntriesE_json (q : Query String) :
    queryEntriesE jsonEmitter q = .ok (queryEntries q) := by
  simp [queryEntriesE, queryEntries, optionalNameEntryE_json,
    serializeVariableDefinitionListE_json, serializeDirectiveListE_json,
    selectionSetEntriesE_json, serializeSelectionSet, except_ok_bind, jsonEmitter_emitNull, jsonEmitter_emitBool, jsonEmitter_emitInt, jsonEmitter_emitStr, jsonEmitter_emitArr, jsonEmitter_emitObj]

theorem mutationEntriesE_json (m : Mutation String) :
    mutationEntriesE jsonEmitter m = .ok (mutationEntries m) := by
  simp [mutationEntriesE, mutationEntries, optionalNameEntryE_json,
    serializeVariableDefinitionListE_json, serializeDirectiveListE_json,
    selectionSetEntriesE_json, serializeSelectionSet, except_ok_bind, jsonEmitter_emitNull, jsonEmitter_emitBool, jsonEmitter_emitInt, jsonEmitter_emitStr, jsonEmitter_emitArr, jsonEmitter_emitObj]

theorem subscriptionEntriesE_json (s : Subscription String) :
    subscriptionEntriesE jsonEmitter s = .ok (subscriptionEntries s) := by
  simp [subscriptionEntriesE, subscriptionEntries, optionalNameEntryE_json,
    serializeVariableDefinitionListE_json, serializeDirectiveListE_json,
    selectionSetEntriesE_json, serializeSelectionSet, except_ok_bind, jsonEmitter_emitNull, jsonEmitter_emitBool, jsonEmitter_emitInt, jsonEmitter_emitStr, jsonEmitter_emitArr, jsonEmitter_emitObj]

theorem operationDefinitionEntriesE_json (od : OperationDefinition String) :
    operationDefinitionEntriesE jsonEmitter od = .ok (operationDefinitionEntries od) := by
  cases od <;>
    simp [operationDefinitionEntriesE, operationDefinitionEntries,
      selectionSetEntriesE_json, queryEntriesE_json, mutationEntriesE_json,
      subscriptionEntriesE_json, except_ok_bind, jsonEmitter_emitNull, jsonEmitter_emitBool, jsonEmitter_emitInt, jsonEmitter_emitStr, jsonEmitter_emitArr, jsonEmitter_emitObj]

theorem fragmentDefinitionEntriesE_json (fd : FragmentDefinition String) :
    fragmentDefinitionEntriesE jsonEmitter fd = .ok (fragmentDefinitionEntries fd) := by
  simp [fragmentDefinitionEntriesE, fragmentDefinitionEntries, serializeNameE_json,
    serializeTypeConditionE_json, serializeDirectiveListE_json,
    selectionSetEntriesE_json, serializeSelectionSet, except_ok_bind, jsonEmitter_emitNull, jsonEmitter_emitBool, jsonEmitter_emitInt, jsonEmitter_emitStr, jsonEmitter_emitArr, jsonEmitter_emitObj]

theorem serializeDefinitionE_json (d : Definition String) :
    serializeDefinitionE jsonEmitter d = .ok (serializeDefinition d) := by
  cases d <;>
    simp [serializeDefinitionE, serializeDefinition, operationDefinitionEntriesE_json,
      fragmentDefinitionEntriesE_json, except_ok_bind, jsonEmitter_emitNull, jsonEmitter_emitBool, jsonEmitter_emitInt, jsonEmitter_emitStr, jsonEmitter_emitArr, jsonEmitter_emitObj]

theorem serializeDefinitionListE_json :
    ∀ ds : List (Definition String),
      serializeDefinitionListE jsonEmitter ds = .ok (ds.map serializeDefinition)
  | [] => rfl
  | d :: ds => by
    simp [serializeDefinitionListE, serializeDefinitionE_json,
      serializeDefinitionListE_json ds, except_ok_bind]

/-- The abstract-emitter mapper instantiated at the JSON builder yields
exactly the pure serialization above. -/
theorem serializeDocumentE_json (d : Document String) :
    serializeDocumentE jsonEmitter d = .ok (serializeDocument d) := by
  simp [serializeDocumentE, serializeDocument, serializeDefinitionListE_json,
    except_ok_bind, jsonEmitter_emitNull, jsonEmitter_emitBool, jsonEmitter_emitInt, jsonEmitter_emitStr, jsonEmitter_emitArr, jsonEmitter_emitObj]

/-! Position independence.  `scrub*` replaces every source-position
field (the `position` fields and the `SelectionSet` span) by a fixed
dummy; serialization not distinguishing a tree from its scrubbed copy
expresses that no source-position data reaches the output. -/

/-- Dummy position used by the scrubbing functions. -/
def dummyPos : Pos := ⟨0, 0⟩

/-- Replace the position of a `VariableDefinition`. -/
def scrubVariableDefinition (vd : VariableDefinition String) : VariableDefinition String :=
  { vd with position := dummyPos }

/-- Replace the position of a `FragmentSpread`. -/
def scrubFragmentSpread (s : FragmentSpread String) : FragmentSpread String :=
  { s with position := dummyPos }

mutual
/-- Replace the span of a `SelectionSet` and recurse. -/
def scrubSelectionSet : SelectionSet String → SelectionSet String
  | .mk _ items => .mk (dummyPos, dummyPos) (scrubSelectionList items)

def scrubSelectionList : List (Selection String) → List (Selection String)
  | [] => []
  | s :: ss => scrubSelection s :: scrubSelectionList ss

def scrubSelection : Selection String → Selection String
  | .field f => .field (scrubField f)
  | .fragmentSpread s => .fragmentSpread (scrubFragmentSpread s)
  | .inlineFragment f => .inlineFragment (scrubInlineFragment f)

def scrubField : Field String → Field String
  | .mk _ al n args dirs ss => .mk dummyPos al n args dirs (scrubSelectionSet ss)

def scrubInlineFragment : InlineFragment String → InlineFragment String
  | .mk _ tc dirs ss => .mk dummyPos tc dirs (scrubSelectionSet ss)
end

/-- Replace every position inside a `Query`. -/
def scrubQuery (q : Query String) : Query String :=
  ⟨dummyPos, q.name, q.variable_definitions.map scrubVariableDefinition,
   q.directives, scrubSelectionSet q.selection_set⟩

/-- Replace every position inside a `Mutation`. -/
def scrubMutation (m : Mutation String) : Mutation String :=
  ⟨dummyPos, m.name, m.variable_definitions.map scrubVariableDefinition,
   m.directives, scrubSelectionSet m.selection_set⟩

/-- Replace every position inside a `Subscription`. -/
def scrubSubscription (s : Subscription String) : Subscription String :=
  ⟨dummyPos, s.name, s.variable_definitions.map scrubVariableDefinition,
   s.directives, scrubSelectionSet s.selection_set⟩

/-- Replace every position inside an `OperationDefinition`. -/
def scrubOperationDefinition : OperationDefinition String → OperationDefinition String
  | .selectionSet ss => .selectionSet (scrubSelectionSet ss)
  | .query q => .query (scrubQuery q)
  | .mutation m => .mutation (scrubMutation m)
  | .subscription s => .subscription (scrubSubscription s)

/-- Replace every position inside a `FragmentDefinition`. -/
def scrubFragmentDefinition (fd : FragmentDefinition String) : FragmentDefinition String :=
  ⟨dummyPos, fd.name, fd.type_condition, fd.directives,
   scrubSelectionSet fd.selection_set⟩

/-- Replace every position inside a `Definition`. -/
def scrubDefinition : Definition String → Definition String
  | .operation od => .operation (scrubOperationDefinition od)
  | .fragment fd => .fragment (scrubFragmentDefinition fd)

/-- Replace every position inside a `Document`. -/
def scrubDocument (d : Document String) : Document String :=
  ⟨d.definitions.map scrubDefinition⟩

theorem serializeVariableDefinition_scrub (vd : VariableDefinition String) :
    serializeVariableDefinition (scrubVariableDefinition vd) =
      serializeVariableDefinition vd := by
  obtain ⟨p, n, t, dv⟩ := vd
  rfl

theorem fragmentSpreadEntries_scrub (s : FragmentSpread String) :
    fragmentSpreadEntries (scrubFragmentSpread s) = fragmentSpreadEntries s := by
  obtain ⟨p, n, dirs⟩ := s
  rfl

mutual
theorem selectionSetEntries_scrub :
    ∀ ss : SelectionSet String,
      selectionSetEntries (scrubSelectionSet ss) = selectionSetEntries ss
  | .mk sp items => by
    simp only [scrubSelectionSet, selectionSetEntries,
      serializeSelectionList_scrub items]

theorem serializeSelectionList_scrub :
    ∀ l : List (Selection String),
      serializeSelectionList (scrubSelectionList l) = serializeSelectionList l
  | [] => rfl
  | s :: ss => by
    simp only [scrubSelectionList, serializeSelectionList,
      serializeSelection_scrub s, serializeSelectionList_scrub ss]

theorem serializeSelection_scrub :
    ∀ s : Selection String,
      serializeSelection (scrubSelection s) = serializeSelection s
  | .field f => by
    simp only [scrubSelection, serializeSelection, fieldEntries_scrub f]
  | .fragmentSpread s => by
    simp only [scrubSelection, serializeSelection, fragmentSpreadEntries_scrub s]
  | .inlineFragment f => by
    simp only [scrubSelection, serializeSelection, inlineFragmentEntries_scrub f]

theorem fieldEntries_scrub :
    ∀ f : Field String, fieldEntries (scrubField f) = fieldEntries f
  | .mk p al n args dirs ss => by
    simp only [scrubField, fieldEntries, selectionSetEntries_scrub ss]

theorem inlineFragmentEntries_scrub :
    ∀ f : InlineFragment String,
      inlineFragmentEntries (scrubInlineFragment f) = inlineFragmentEntries f
  | .mk p tc dirs ss => by
    simp only [scrubInlineFragment, inlineFragmentEntries, selectionSetEntries_scrub ss]
end

theorem queryEntries_scrub (q : Query String) :
    queryEntries (scrubQuery q) = queryEntries q := by
  simp [queryEntries, scrubQuery, serializeSelectionSet, selectionSetEntries_scrub,
    List.map_map, serializeVariableDefinition_scrub, Function.comp]

theorem mutationEntries_scrub (m : Mutation String) :
    mutationEntries (scrubMutation m) = mutationEntries m := by
  simp [mutationEntries, scrubMutation, serializeSelectionSet, selectionSetEntries_scrub,
    List.map_map, serializeVariableDefinition_scrub, Function.comp]

theorem subscriptionEntries_scrub (s : Subscription String) :
    subscriptionEntries (scrubSubscription s) = subscriptionEntries s := by
  simp [subscriptionEntries, scrubSubscription, serializeSelectionSet,
    selectionSetEntries_scrub, List.map_map, serializeVariableDefinition_scrub,
    Function.comp]

theorem operationDefinitionEntries_scrub (od : OperationDefinition String) :
    operationDefinitionEntries (scrubOperationDefinition od) =
      operationDefinitionEntries od := by
  cases od with
  | selectionSet ss =>
    simp [operationDefinitionEntries, scrubOperationDefinition, selectionSetEntries_scrub]
  | query q =>
    simp [operationDefinitionEntries, scrubOperationDefinition, queryEntries_scrub]
  | mutation m =>
    simp [operationDefinitionEntries, scrubOperationDefinition, mutationEntries_scrub]
  | subscription s =>
    simp [operationDefinitionEntries, scrubOperationDefinition, subscriptionEntries_scrub]

theorem serializeDefinition_scrub (d : Definition String) :
    serializeDefinition (scrubDefinition d) = serializeDefinition d := by
  cases d with
  | operation od =>
    simp [serializeDefinition, scrubDefinition, operationDefinitionEntries_scrub]
  | fragment fd =>
    simp [serializeDefinition, scrubDefinition, scrubFragmentDefinition,
      fragmentDefinitionEntries, serializeSelectionSet, selectionSetEntries_scrub]

/-- C4: the serialized output of a tree equals that of the same tree
with every source position (`position` fields, `SelectionSet` span)
replaced by a dummy — no source-position data appears in the output. -/
theorem serialization_ignores_positions (d : Document String) :
    serializeDocument (scrubDocument d) = serializeDocument d := by
  simp [serializeDocument, scrubDocument, List.map_map, Function.comp,
    serializeDefinition_scrub]

/-! Properties of the `BTreeMap` embedding. -/

theorem mem_btreeInsert {k : String} {v : α} {m : List (String × α)}
    {x : String × α} (hx : x ∈ btreeInsert k v m) : x = (k, v) ∨ x ∈ m := by
  induction m with
  | nil => simpa [btreeInsert] using hx
  | cons hd tl ih =>
    obtain ⟨k', v'⟩ := hd
    by_cases h₁ : k < k'
    · simp only [btreeInsert, if_pos h₁] at hx
      simpa using hx
    · by_cases h₂ : k = k'
      · simp only [btreeInsert, if_neg h₁, if_pos h₂] at hx
        rcases List.mem_cons.mp hx with h | h
        · exact Or.inl h
        · exact Or.inr (List.mem_cons_of_mem _ h)
      · simp only [btreeInsert, if_neg h₁, if_neg h₂] at hx
        rcases List.mem_cons.mp hx with h | h
        · exact Or.inr (h ▸ List.mem_cons_self _ _)
        · rcases ih h with h' | h'
          · exact Or.inl h'
          · exact Or.inr (List.mem_cons_of_mem _ h')

theorem btreeInsert_pairwise {k : String} {v : α} {m : List (String × α)}
    (hm : m.Pairwise fun p q => p.1 < q.1) :
    (btreeInsert k v m).Pairwise fun p q => p.1 < q.1 := by
  induction m with
  | nil => simp [btreeInsert]
  | cons hd tl ih =>
    obtain ⟨k', v'⟩ := hd
    rw [List.pairwise_cons] at hm
    obtain ⟨hhd, htl⟩ := hm
    by_cases h₁ : k < k'
    · simp only [btreeInsert, if_pos h₁]
      refine List.Pairwise.cons ?_ (List.Pairwise.cons hhd htl)
      intro y hy
      rcases List.mem_cons.mp hy with h | h
      · exact h ▸ h₁
      · exact h₁.trans (hhd y h)
    · by_cases h₂ : k = k'
      · simp only [btreeInsert, if_neg h₁, if_pos h₂]
        exact List.Pairwise.cons (fun y hy => h₂ ▸ hhd y hy) htl
      · have hk : k' < k := lt_of_le_of_ne (le_of_not_lt h₁) (Ne.symm h₂)
        simp only [btreeInsert, if_neg h₁, if_neg h₂]
        refine List.Pairwise.cons ?_ (ih htl)
        intro y hy
        rcases mem_btreeInsert hy with h | h
        · exact h ▸ hk
        · exact hhd y h

theorem btreeOfList_pairwise (l : List (String × α)) :
    (btreeOfList l).Pairwise fun p q => p.1 < q.1 := by
  suffices h : ∀ m : List (String × α), (m.Pairwise fun p q => p.1 < q.1) →
      (l.foldl (fun m p => btreeInsert p.1 p.2 m) m).Pairwise fun p q => p.1 < q.1 from
    h [] (List.Pairwise.nil)
  induction l with
  | nil => intro m hm; simpa using hm
  | cons hd tl ih =>
    intro m hm
    exact ih _ (btreeInsert_pairwise hm)

theorem btreeInsert_comm {k₁ k₂ : String} (h : k₁ ≠ k₂) (v₁ v₂ : α)
    (m : List (String × α)) :
    btreeInsert k₂ v₂ (btreeInsert k₁ v₁ m) = btreeInsert k₁ v₁ (btreeInsert k₂ v₂ m) := by
  induction m with
  | nil =>
    rcases lt_trichotomy k₁ k₂ with h₃ | h₃ | h₃
    · simp [btreeInsert, h₃, h₃.asymm, h₃.ne, h₃.ne']
    · exact absurd h₃ h
    · simp [btreeInsert, h₃, h₃.asymm, h₃.ne, h₃.ne']
  | cons hd tl ih =>
    obtain ⟨k₀, v₀⟩ := hd
    rcases lt_trichotomy k₁ k₀ with h₁ | h₁ | h₁
    · rcases lt_trichotomy k₂ k₀ with h₂ | h₂ | h₂
      · rcases lt_trichotomy k₁ k₂ with h₃ | h₃ | h₃
        · simp [btreeInsert, h₁, h₂, h₃, h₃.asymm, h₃.ne, h₃.ne']
        · exact absurd h₃ h
        · simp [btreeInsert, h₁, h₂, h₃, h₃.asymm, h₃.ne, h₃.ne']
      · subst h₂
        have h₃ : k₁ < k₂ := h₁
        simp [btreeInsert, h₃, h₃.asymm, h₃.ne, h₃.ne', lt_self_iff_false]
      · have h₃ : k₁ < k₂ := h₁.trans h₂
        simp [btreeInsert, h₁, h₂.asymm, h₂.ne, h₂.ne', h₃, h₃.asymm, h₃.ne, h₃.ne']
    · subst h₁
      rcases lt_trichotomy k₂ k₁ with h₂ | h₂ | h₂
      · simp [btreeInsert, h₂, h₂.asymm, h₂.ne, h₂.ne', lt_self_iff_false]
      · exact absurd h₂.symm h
      · simp [btreeInsert, h₂, h₂.asymm, h₂.ne, h₂.ne', lt_self_iff_false]
    · rcases lt_trichotomy k₂ k₀ with h₂ | h₂ | h₂
      · have h₃ : k₂ < k₁ := h₂.trans h₁
        simp [btreeInsert, h₁.asymm, h₁.ne, h₁.ne', h₂, h₃, h₃.asymm, h₃.ne, h₃.ne']
      · subst h₂
        have h₃ : k₂ < k₁ := h₁
        simp [btreeInsert, h₃, h₃.asymm, h₃.ne, h₃.ne', lt_self_iff_false]
      · simp [btreeInsert, h₁.asymm, h₁.ne, h₁.ne', h₂.asymm, h₂.ne, h₂.ne', ih]

theorem btreeOfList_perm_invariant {l₁ l₂ : List (String × α)}
    (hnd : (l₁.map Prod.fst).Nodup) (hp : l₁.Perm l₂) :
    btreeOfList l₁ = btreeOfList l₂ := by
  unfold btreeOfList
  refine hp.foldl_eq' ?_ []
  intro x hx y hy z
  by_cases hxy : x = y
  · subst hxy; rfl
  · have hne : x.1 ≠ y.1 := fun hfst => hxy (List.inj_on_of_nodup_map hnd hx hy hfst)
    exact btreeInsert_comm hne x.2 y.2 z

theorem serializeValueEntries_eq_map (es : List (String × Value String)) :
    serializeValueEntries es = es.map fun p => (p.1, serializeValue p.2) := by
  induction es with
  | nil => simp [serializeValueEntries]
  | cons hd tl ih =>
    obtain ⟨k, v⟩ := hd
    simp [serializeValueEntries, ih]

/-- C3: an object map built by inserting any sequence of entries has
unique, strictly ascending keys; serializing it emits the entries in
that ascending order; and the built map does not depend on the
insertion order of a duplicate-free entry sequence. -/
theorem object_keys_unique_sorted_insertion_independent
    (l₁ l₂ : List (String × Value String))
    (hnd : (l₁.map Prod.fst).Nodup) (hp : l₁.Perm l₂) :
    ((btreeOfList l₁).Pairwise fun p q => p.1 < q.1) ∧
    serializeValue (.object (btreeOfList l₁)) =
      .obj ((btreeOfList l₁).map fun p => (p.1, serializeValue p.2)) ∧
    btreeOfList l₁ = btreeOfList l₂ :=
  ⟨btreeOfList_pairwise l₁,
   by simp [serializeValue, serializeValueEntries_eq_map],
   btreeOfList_perm_invariant hnd hp⟩

/-- Entry sequence inserting key `b` before key `a`. -/
def exObjIns1 : List (String × Value String) := [("b", .int 1), ("a", .int 2)]

/-- The same entries inserted in the opposite order. -/
def exObjIns2 : List (String × Value String) := [("a", .int 2), ("b", .int 1)]

/-- C3 witness: inserting `b` then `a` gives the same map, with `a`
first, as inserting `a` then `b`. -/
theorem object_keys_unique_sorted_insertion_independent_witness :
    (exObjIns1.map Prod.fst).Nodup ∧ exObjIns1.Perm exObjIns2 ∧
    (((btreeOfList exObjIns1).Pairwise fun p q => p.1 < q.1) ∧
     serializeValue (.object (btreeOfList exObjIns1)) =
       .obj ((btreeOfList exObjIns1).map fun p => (p.1, serializeValue p.2)) ∧
     btreeOfList exObjIns1 = btreeOfList exObjIns2) :=
  ⟨by decide,
   List.Perm.swap ("a", Value.int 2) ("b", Value.int 1) [],
   object_keys_unique_sorted_insertion_independent exObjIns1 exObjIns2 (by decide)
     (List.Perm.swap ("a", Value.int 2) ("b", Value.int 1) [])⟩

/-! Concrete trees used to witness theorems with hypotheses. -/

/-- Concrete empty selection set. -/
def exSelectionSet : SelectionSet String := .mk (⟨1, 1⟩, ⟨1, 2⟩) []

/-- Concrete field without alias, with two arguments in declared order. -/
def exField : Field String :=
  .mk ⟨1, 3⟩ none "f" [("x", .int 1), ("y", .int 2)] [] exSelectionSet

/-- Concrete field with an alias. -/
def exAliasedField : Field String :=
  .mk ⟨2, 3⟩ (some "a") "f" [] [] exSelectionSet

/-- Concrete nameless query. -/
def exQuery : Query String := ⟨⟨1, 1⟩, none, [], [], exSelectionSet⟩

/-- Concrete nameless mutation. -/
def exMutation : Mutation String := ⟨⟨1, 1⟩, none, [], [], exSelectionSet⟩

/-- Concrete nameless subscription. -/
def exSubscription : Subscription String := ⟨⟨1, 1⟩, none, [], [], exSelectionSet⟩

/-- Concrete inline fragment without a type condition. -/
def exInlineFragment : InlineFragment String := .mk ⟨3, 1⟩ none [] exSelectionSet

/-- C1: serializing a `Field` or a `Directive` emits its argument list
as a JSON array of name/value argument objects whose i-th element comes
from the i-th declared argument — declaration order preserved, never an
unordered map. -/
theorem field_and_directive_arguments_in_declared_order
    (f : Field String) (d : Directive String) :
    ∃ fArgs dArgs : List Json,
      (serializeField f).lookup "arguments" = some (.arr fArgs) ∧
      fArgs.length = f.arguments.length ∧
      (∀ i : Nat, fArgs[i]? = (f.arguments[i]?).map fun a =>
        .obj [("name", serialize_name a.1), ("value", serializeValue a.2)]) ∧
      (serializeDirective d).lookup "arguments" = some (.arr dArgs) ∧
      dArgs.length = d.arguments.length ∧
      (∀ i : Nat, dArgs[i]? = (d.arguments[i]?).map fun a =>
        .obj [("name", serialize_name a.1), ("value", serializeValue a.2)]) := by
  obtain ⟨p, al, n, args, dirs, ss⟩ := f
  refine ⟨args.map fun a => .obj [("name", serialize_name a.1), ("value", serializeValue a.2)],
          d.arguments.map fun a => .obj [("name", serialize_name a.1), ("value", serializeValue a.2)],
          ?_, ?_, ?_, ?_, ?_, ?_⟩ <;>
    cases al <;>
      simp [serializeField, fieldEntries, serializeDirective, serialize_arguments,
        Json.lookup, lookupKey, optionalNameEntry, Field.arguments, List.getElem?_map]

/-- C2: an absent optional Name field contributes no key at all to the
output (shown for `Field.alias` and the names of `Query`, `Mutation`,
`Subscription`), while a present alias is emitted as a wrapped name
object under the `alias` key. -/
theorem optional_name_fields_omitted_when_absent
    (f g : Field String) (q : Query String) (m : Mutation String)
    (s : Subscription String) (a : String)
    (hf : f.aliasName = none) (hg : g.aliasName = some a)
    (hq : q.name = none) (hm : m.name = none) (hs : s.name = none) :
    "alias" ∉ (fieldEntries f).map Prod.fst ∧
    (serializeField g).lookup "alias" =
      some (.obj [("kind", .str "Name"), ("value", .str a)]) ∧
    "name" ∉ (queryEntries q).map Prod.fst ∧
    "name" ∉ (mutationEntries m).map Prod.fst ∧
    "name" ∉ (subscriptionEntries s).map Prod.fst := by
  obtain ⟨pf, alf, nf, argsf, dirsf, ssf⟩ := f
  obtain ⟨pg, alg, ng, argsg, dirsg, ssg⟩ := g
  simp only [Field.aliasName] at hf hg
  subst hf hg
  refine ⟨?_, ?_, ?_, ?_, ?_⟩ <;>
    simp [serializeField, fieldEntries, queryEntries, mutationEntries,
      subscriptionEntries, optionalNameEntry, Json.lookup, lookupKey,
      serialize_name, hq, hm, hs]

/-- C2 witness: concrete instances of the omission and wrapping rules. -/
theorem optional_name_fields_omitted_when_absent_witness :
    exField.aliasName = none ∧ exAliasedField.aliasName = some "a" ∧
    exQuery.name = none ∧ exMutation.name = none ∧ exSubscription.name = none ∧
    ("alias" ∉ (fieldEntries exField).map Prod.fst ∧
     (serializeField exAliasedField).lookup "alias" =
       some (.obj [("kind", .str "Name"), ("value", .str "a")]) ∧
     "name" ∉ (queryEntries exQuery).map Prod.fst ∧
     "name" ∉ (mutationEntries exMutation).map Prod.fst ∧
     "name" ∉ (subscriptionEntries exSubscription).map Prod.fst) :=
  ⟨rfl, rfl, rfl, rfl, rfl,
   optional_name_fields_omitted_when_absent exField exAliasedField exQuery
     exMutation exSubscription "a" rfl rfl rfl rfl rfl⟩

/-- C5: every `Definition` variant carries `kind` equal to the
reference-grammar name, every `Selection` variant carries `kind` equal
to its variant name, and every named `OperationDefinition` variant
carries `operation` equal to the camelCased variant name. -/
theorem variant_discriminators
    (od : OperationDefinition String) (fd : FragmentDefinition String)
    (f : Field String) (fs : FragmentSpread String) (il : InlineFragment String)
    (q : Query String) (m : Mutation String) (s : Subscription String) :
    (serializeDefinition (.operation od)).lookup "kind" = some (.str "OperationDefinition") ∧
    (serializeDefinition (.fragment fd)).lookup "kind" = some (.str "FragmentDefinition") ∧
    (serializeSelection (.field f)).lookup "kind" = some (.str "Field") ∧
    (serializeSelection (.fragmentSpread fs)).lookup "kind" = some (.str "FragmentSpread") ∧
    (serializeSelection (.inlineFragment il)).lookup "kind" = some (.str "InlineFragment") ∧
    (serializeDefinition (.operation (.query q))).lookup "operation" = some (.str "query") ∧
    (serializeDefinition (.operation (.mutation m))).lookup "operation" = some (.str "mutation") ∧
    (serializeDefinition (.operation (.subscription s))).lookup "operation" =
      some (.str "subscription") := by
  refine ⟨?_, ?_, ?_, ?_, ?_, ?_, ?_, ?_⟩ <;>
    simp [serializeDefinition, serializeSelection, operationDefinitionEntries,
      Json.lookup, lookupKey]

/-- C6: `TypeCondition::On(name)` serializes to exactly the two-entry
object with kind `NamedType` and the wrapped name as value. -/
theorem type_condition_two_entry_shape (n : String) :
    serializeTypeCondition (.on n) =
      .obj [("kind", .str "NamedType"),
            ("value", .obj [("kind", .str "Name"), ("value", .str n)])] := rfl

/-- C7: on the owned instantiation `into_static` returns a tree
structurally equal to its input; the conversion is defined only at the
owned instantiation, mirroring `impl<'a> Document<'a, String>`. -/
theorem into_static_is_structural_identity (d : Document String) :
    d.into_static = d := rfl

/-- C8: serialization is a pure function of the tree, so two runs of
the mapper on the same tree render byte-identical output. -/
theorem serialization_deterministic (d : Document String) :
    Json.render (serializeDocument d) = Json.render (serializeDocument d) := rfl

/-- C10: an `InlineFragment` without a type condition serializes with
the `typeCondition` key present and bound to JSON `null`. -/
theorem inline_fragment_absent_type_condition_null
    (f : InlineFragment String) (h : f.type_condition = none) :
    (serializeInlineFragment f).lookup "typeCondition" = some Json.null ∧
    "typeCondition" ∈ (inlineFragmentEntries f).map Prod.fst := by
  obtain ⟨p, tc, dirs, ss⟩ := f
  simp only [InlineFragment.type_condition] at h
  subst h
  constructor <;> simp [serializeInlineFragment, inlineFragmentEntries, Json.lookup, lookupKey]

/-- C10 witness: the rule at a concrete inline fragment. -/
theorem inline_fragment_absent_type_condition_null_witness :
    exInlineFragment.type_condition = none ∧
    ((serializeInlineFragment exInlineFragment).lookup "typeCondition" = some Json.null ∧
     "typeCondition" ∈ (inlineFragmentEntries exInlineFragment).map Prod.fst) :=
  ⟨rfl, inline_fragment_absent_type_condition_null exInlineFragment rfl⟩

end GraphqlParser
